import Mathlib

/-!
Verification development for the resumable discussion fetcher
(src/fetch_list.py of helloamger/JiNan-Company-Rating).

The Python program is shallowly embedded: the retrying request executor
`execute_graphql_with_retry`, the checkpoint store (`load_checkpoint`,
`save_checkpoint`), the pagination controller `fetch_discussions` and the
finalizer `save_final_result` become Lean functions over explicit
environment scripts.  Network attempts and user interruptions are supplied
by the environment: one `AttemptResult` per HTTP attempt for the executor,
one `PageOutcome` per loop iteration for the controller.  Sleeping is
modelled by an integer clock; every sleep amount is also recorded in a
trace.  Checkpoint writes, the final artifact, and checkpoint deletion are
recorded in a `RunResult` trace instead of touching a file system.
-/

namespace FetchList

/-- Discussion record exactly as the fetch loop builds it from a GraphQL
node (dict keys `number`, `title`, `created_at`, `url`, `bodyHTML`). -/
structure Discussion where
  number : Nat
  title : String
  created_at : String
  url : String
  bodyHTML : String
deriving DecidableEq

/-- Raw GraphQL node of one edge (fields `number`, `bodyHTML`, `title`,
`createdAt`, `url` requested by the query template). -/
structure Node where
  number : Nat
  title : String
  createdAt : String
  url : String
  bodyHTML : String
deriving DecidableEq

/-- Field-for-field mapping from a raw node to a Discussion record,
as in the loop body of `fetch_discussions`. -/
def nodeToDiscussion (n : Node) : Discussion :=
  { number := n.number, title := n.title, created_at := n.createdAt,
    url := n.url, bodyHTML := n.bodyHTML }

/-- The `pageInfo` object of the discussions connection. -/
structure PageInfo where
  hasNextPage : Bool
  endCursor : Option String
deriving DecidableEq

/-- The `data.repository.discussions` part of a response. -/
structure PageData where
  edges : List Node
  pageInfo : PageInfo
deriving DecidableEq

/-- Parsed JSON body of a successful HTTP response, as far as the program
inspects it: either the body carries the expected data section, or the
`data` key is missing (this also stands for a falsy body such as an empty
object, which the controller treats identically via `if not data`). -/
inductive Payload
  | noData
  | withData (d : PageData)
deriving DecidableEq

/-- Lower-case a string character by character (models `str.lower()`). -/
def lowerStr (s : String) : String := String.mk (s.data.map Char.toLower)

/-- Does the second list start with the first one? -/
def matchAt : List Char → List Char → Bool
  | [], _ => true
  | _ :: _, [] => false
  | a :: as, b :: bs => a == b && matchAt as bs

/-- Does `hay` contain `needle` as a contiguous subsequence?  Models the
Python substring test `needle in hay`. -/
def containsSeq (needle : List Char) : List Char → Bool
  | [] => matchAt needle []
  | b :: bs => matchAt needle (b :: bs) || containsSeq needle bs

/-- Models `'rate limit' in error_msg.lower()`. -/
def isRateLimitMsg (msg : String) : Bool :=
  containsSeq ("rate limit".data) ((lowerStr msg).data)

/-- Outcome of one HTTP attempt, supplied by the environment: the transport
raises (timeout, connection error, or non-2xx via `raise_for_status`), or
the parsed body carries a GraphQL error list (first error message and the
integer value of the `X-RateLimit-Reset` header, `0` when the header is
absent), or the request succeeds and parses to `payload`. -/
inductive AttemptResult
  | transportError (cause : String)
  | graphqlErrors (msg : String) (resetTime : Int)
  | success (payload : Payload)
deriving DecidableEq

/-- Exception raised by `execute_graphql_with_retry`: the transport-failure
exhaustion message wrapping the last cause, or the GraphQL-error message. -/
inductive ExnMsg
  | transport (cause : String)
  | graphql (msg : String)
deriving DecidableEq

/-- Value produced by `execute_graphql_with_retry`: the returned payload,
the `return None` that ends the function when the `for` loop runs off its
end, or a raised exception. -/
inductive ExecResult
  | retData (payload : Payload)
  | retNone
  | raised (e : ExnMsg)
deriving DecidableEq

/-- Result of a call to `execute_graphql_with_retry` together with its
observable effects: final clock value, the sleeps performed in order, and
the number of HTTP attempts made. -/
structure ExecOut where
  res : ExecResult
  clock : Int
  sleeps : List Int
  tries : Nat
deriving DecidableEq

/-- One step of the `for attempt in range(max_retries)` loop of
`execute_graphql_with_retry`.  `remaining` counts the iterations the
`range` still has (at entry `attempt + remaining = max_retries`); when it
reaches 0 the loop falls off its end and the function returns `None`.
Each iteration consults the environment script at index `attempt`.
A rate-limit GraphQL error with a nonzero reset header sleeps
`max (reset - clock) 0 + 5` and `continue`s; any other GraphQL error
sleeps the fixed `retry_delay` and `continue`s while `attempt <
max_retries - 1`, raising on the last attempt; a transport error sleeps
`retry_delay * (attempt + 1)` and `continue`s under the same condition,
raising on the last attempt. -/
def execGo (script : Nat → AttemptResult) (max_retries : Nat) (retry_delay : Int) :
    Nat → Nat → Int → List Int → Nat → ExecOut
  | _, 0, clock, sleeps, tries => ⟨.retNone, clock, sleeps, tries⟩
  | attempt, r + 1, clock, sleeps, tries =>
    match script attempt with
    | .success p => ⟨.retData p, clock, sleeps, tries + 1⟩
    | .transportError cause =>
      if attempt < max_retries - 1 then
        execGo script max_retries retry_delay (attempt + 1) r
          (clock + retry_delay * (attempt + 1))
          (sleeps ++ [retry_delay * (attempt + 1)]) (tries + 1)
      else ⟨.raised (.transport cause), clock, sleeps, tries + 1⟩
    | .graphqlErrors msg reset =>
      if isRateLimitMsg msg && reset != 0 then
        execGo script max_retries retry_delay (attempt + 1) r
          (clock + (max (reset - clock) 0 + 5))
          (sleeps ++ [max (reset - clock) 0 + 5]) (tries + 1)
      else if attempt < max_retries - 1 then
        execGo script max_retries retry_delay (attempt + 1) r
          (clock + retry_delay) (sleeps ++ [retry_delay]) (tries + 1)
      else ⟨.raised (.graphql msg), clock, sleeps, tries + 1⟩

/-- `execute_graphql_with_retry(query, token, max_retries, retry_delay)`
over an environment script giving the outcome of each HTTP attempt and a
starting clock value.  The query and the token do not influence control
flow and are omitted. -/
def execute_graphql_with_retry (script : Nat → AttemptResult)
    (max_retries : Nat) (retry_delay : Int) (clock : Int) : ExecOut :=
  execGo script max_retries retry_delay 0 max_retries clock [] 0

example : isRateLimitMsg "API Rate Limit exceeded for user" = true := by decide

example : isRateLimitMsg "Something went wrong" = false := by decide

example :
    execute_graphql_with_retry (fun _ => .transportError "boom") 3 5 0 =
      ⟨.raised (.transport "boom"), 15, [5, 10], 3⟩ := by decide

/-- Configuration constants of the module. -/
def REPO_OWNER : String := "helloamger"

def REPO_NAME : String := "JiNan-Company-Rating"

def CATEGORY_ID : String := "DIC_kwDORKDfUs4C19oY"

/-- Checkpoint record as written by `save_checkpoint`. -/
structure Checkpoint where
  discussions : List Discussion
  last_cursor : Option String
  has_more : Bool
  total_count : Nat
deriving DecidableEq

/-- The checkpoint dict the loop builds before each `save_checkpoint` call:
`total_count` is always `len(discussions)`. -/
def mkCheckpoint (ds : List Discussion) (cursor : Option String) (hm : Bool) : Checkpoint :=
  { discussions := ds, last_cursor := cursor, has_more := hm, total_count := ds.length }

/-- Parsed content of the checkpoint file.  Each field is wrapped in an
outer `Option` recording whether the JSON object has that key at all (for
`last_cursor` the inner `Option` is the JSON value, which may be null). -/
structure RawCheckpoint where
  discussions : Option (List Discussion)
  last_cursor : Option (Option String)
  has_more : Option Bool
  total_count : Option Nat
deriving DecidableEq

/-- State of the checkpoint file at startup: absent, present but failing
to read or to parse as JSON, or present with parsed content `c`. -/
inductive CheckpointFile
  | absent
  | unreadable
  | content (c : RawCheckpoint)
deriving DecidableEq

/-- The default empty checkpoint dict of `load_checkpoint`. -/
def default_checkpoint : RawCheckpoint :=
  { discussions := some [], last_cursor := some none,
    has_more := some true, total_count := some 0 }

/-- `load_checkpoint()`: return the parsed file content unchanged when the
file exists and parses; on a missing file or a read/parse failure fall
back to the default empty checkpoint. -/
def load_checkpoint : CheckpointFile → RawCheckpoint
  | .content c => c
  | .absent => default_checkpoint
  | .unreadable => default_checkpoint

/-- The `output_data` dict built by `save_final_result(discussions)`;
`now` is the value of `datetime.now().isoformat()`. -/
structure FinalArtifact where
  repository : String
  category_id : String
  total_count : Nat
  fetched_at : String
  discussions : List Discussion
deriving DecidableEq

def build_output_data (ds : List Discussion) (now : String) : FinalArtifact :=
  { repository := REPO_OWNER ++ "/" ++ REPO_NAME, category_id := CATEGORY_ID,
    total_count := ds.length, fetched_at := now, discussions := ds }

/-- Environment event for one iteration of the fetch loop: either the user
interrupt (`KeyboardInterrupt`) arrives at this iteration boundary, or the
iteration's `execute_graphql_with_retry` call runs against the given
per-attempt transport behaviour.  Cancellation is modelled at iteration
boundaries, matching the cooperative cancellation model of the program
(single sequential process, suspension only at explicit waits). -/
inductive PageOutcome
  | interrupt
  | attempts (att : Nat → AttemptResult)

/-- How `fetch_discussions` ends: a normal `return all_discussions`, a
propagated exception, or exhaustion of the modelling fuel (the Python
loop is unbounded; fuel only truncates the model, it is not program
behaviour). -/
inductive RunError
  | keyError
  | fetch (e : ExnMsg)
deriving DecidableEq

inductive Outcome
  | returned (ds : List Discussion)
  | raised (e : RunError)
  | fuelOut
deriving DecidableEq

/-- Observable trace of one `fetch_discussions()` run: its outcome, every
checkpoint passed to `save_checkpoint` in order, the final artifact given
to `save_final_result` (if any), whether the checkpoint file was deleted,
the number of executor invocations (pages requested), the item count of
each processed page, the loop variables at the end of the run, and the
final clock. -/
structure RunResult where
  outcome : Outcome
  checkpoints : List Checkpoint
  finalArtifact : Option FinalArtifact
  checkpointCleared : Bool
  pagesRequested : Nat
  pageCounts : List Nat
  endCursor : Option String
  endHasMore : Bool
  clock : Int
deriving DecidableEq

/-- The code that runs after the `while` loop ends without an exception
(both on `has_more` becoming false and on the `break` for a missing data
section): `save_final_result(all_discussions)` followed by removal of the
checkpoint file. -/
def finishRun (all : List Discussion) (now : String) (cursor : Option String)
    (hm : Bool) (cps : List Checkpoint) (counts : List Nat) (reqs : Nat)
    (clock : Int) : RunResult :=
  { outcome := .returned all, checkpoints := cps,
    finalArtifact := some (build_output_data all now),
    checkpointCleared := true, pagesRequested := reqs, pageCounts := counts,
    endCursor := cursor, endHasMore := hm, clock := clock }

/-- The `while has_more:` loop of `fetch_discussions` together with its
`except KeyboardInterrupt` and `except Exception` handlers.  One fuel unit
per iteration; `page` is the 0-based page index (`page_count - 1`).
An executor exception is caught by the generic handler, which saves a
checkpoint of the current state and re-raises.  A `None` return or a
payload without the data section `break`s, after which control falls
through to `save_final_result` and checkpoint removal.  An interrupt is
caught, a checkpoint of the current state is saved, and the accumulator
is returned. -/
def fetchLoop (script : Nat → PageOutcome) (now : String) :
    Nat → Nat → List Discussion → Option String → Bool → List Checkpoint →
    List Nat → Nat → Int → RunResult
  | fuel, page, all, cursor, has_more, cps, counts, reqs, clock =>
    if has_more = false then finishRun all now cursor has_more cps counts reqs clock
    else
      match fuel with
      | 0 =>
        { outcome := .fuelOut, checkpoints := cps, finalArtifact := none,
          checkpointCleared := false, pagesRequested := reqs, pageCounts := counts,
          endCursor := cursor, endHasMore := has_more, clock := clock }
      | f + 1 =>
        match script page with
        | .interrupt =>
          { outcome := .returned all,
            checkpoints := cps ++ [mkCheckpoint all cursor has_more],
            finalArtifact := none, checkpointCleared := false,
            pagesRequested := reqs, pageCounts := counts,
            endCursor := cursor, endHasMore := has_more, clock := clock }
        | .attempts att =>
          let out := execute_graphql_with_retry att 3 5 clock
          match out.res with
          | .raised e =>
            { outcome := .raised (.fetch e),
              checkpoints := cps ++ [mkCheckpoint all cursor has_more],
              finalArtifact := none, checkpointCleared := false,
              pagesRequested := reqs + 1, pageCounts := counts,
              endCursor := cursor, endHasMore := has_more, clock := out.clock }
          | .retNone =>
            finishRun all now cursor has_more cps counts (reqs + 1) out.clock
          | .retData .noData =>
            finishRun all now cursor has_more cps counts (reqs + 1) out.clock
          | .retData (.withData pd) =>
            let newDiscussions := pd.edges.map nodeToDiscussion
            let all' := all ++ newDiscussions
            let hm' := pd.pageInfo.hasNextPage
            let cursor' := if hm' then pd.pageInfo.endCursor else none
            let clock' := if hm' then out.clock + 25 else out.clock
            fetchLoop script now f (page + 1) all' cursor' hm'
              (cps ++ [mkCheckpoint all' cursor' hm'])
              (counts ++ [newDiscussions.length]) (reqs + 1) clock'

/-- `fetch_discussions()`: load the checkpoint, read the keys
`discussions`, `last_cursor` and `has_more` (an absent key raises
`KeyError` before the `try` block, hence before any page is requested),
then run the loop. -/
def fetch_discussions (file : CheckpointFile) (script : Nat → PageOutcome)
    (now : String) (fuel : Nat) : RunResult :=
  let checkpoint := load_checkpoint file
  match checkpoint.discussions, checkpoint.last_cursor, checkpoint.has_more with
  | some all, some cursor, some hm =>
    fetchLoop script now fuel 0 all cursor hm [] [] 0 0
  | _, _, _ =>
    { outcome := .raised .keyError, checkpoints := [], finalArtifact := none,
      checkpointCleared := false, pagesRequested := 0, pageCounts := [],
      endCursor := none, endHasMore := true, clock := 0 }

/-! ### Concrete scenario inputs used by the closed theorems below -/

/-- One concrete discussion node (page 1 item of the malformed-page
scenario of the spec). -/
def node1 : Node :=
  { number := 1, title := "t1", createdAt := "2024-01-01", url := "u1", bodyHTML := "b1" }

def disc1 : Discussion :=
  { number := 1, title := "t1", created_at := "2024-01-01", url := "u1", bodyHTML := "b1" }

/-- Page 1 succeeds with one item and `hasNextPage = true`,
`endCursor = "C1"`. -/
def page1data : PageData :=
  { edges := [node1], pageInfo := { hasNextPage := true, endCursor := some "C1" } }

/-- Malformed-page scenario script: page 1 succeeds, page 2's response has
no data section, later pages are irrelevant. -/
def malformedScript : Nat → PageOutcome
  | 0 => .attempts (fun _ => .success (.withData page1data))
  | _ => .attempts (fun _ => .success .noData)

/-- Script whose every attempt is a GraphQL rate-limit error with the
reset header set 10 time units past the initial clock. -/
def rateLimitScript : Nat → AttemptResult :=
  fun _ => .graphqlErrors "API rate limit exceeded" 10

/-- Script whose every page fails at the transport level on every
attempt. -/
def transportFailScript : Nat → PageOutcome :=
  fun _ => .attempts (fun _ => .transportError "conn reset")

/-- Script that delivers the user interrupt at the first iteration
boundary. -/
def interruptScript : Nat → PageOutcome := fun _ => .interrupt

/-! ### Executor lemmas -/

/-- Does this attempt outcome take the rate-limit `continue` path of the
executor (a GraphQL error whose message matches "rate limit" and whose
reset header is nonzero)? -/
def rlContinue : AttemptResult → Bool
  | .graphqlErrors msg reset => isRateLimitMsg msg && reset != 0
  | _ => false

theorem range_map_shift (rd : Int) (a r : Nat) :
    (List.range (r + 1)).map (fun j : Nat => rd * ((a : Int) + 1 + (j : Int))) =
      rd * ((a : Int) + 1) ::
        (List.range r).map (fun j : Nat => rd * ((a : Int) + 2 + (j : Int))) := by
  rw [List.range_succ_eq_map]
  simp only [List.map_cons, List.map_map, Nat.cast_zero, add_zero]
  refine congrArg₂ _ rfl ?_
  apply List.map_congr_left
  intro j _
  simp only [Function.comp_apply, Nat.succ_eq_add_one]
  push_cast
  ring

/-- When every attempt fails at the transport level, `execGo` runs all its
remaining iterations, sleeping `retry_delay * (attempt + 1)` between
consecutive attempts, and raises wrapping the cause of the last attempt. -/
theorem execGo_transport (script : Nat → AttemptResult) (causes : Nat → String)
    (h : ∀ i, script i = .transportError (causes i)) (mr : Nat) (rd : Int) :
    ∀ r attempt clock sleeps tries, attempt + r = mr → 0 < r →
      (execGo script mr rd attempt r clock sleeps tries).res =
          .raised (.transport (causes (mr - 1))) ∧
        (execGo script mr rd attempt r clock sleeps tries).tries = tries + r ∧
        (execGo script mr rd attempt r clock sleeps tries).sleeps =
          sleeps ++ (List.range (r - 1)).map
            (fun j : Nat => rd * ((attempt : Int) + 1 + (j : Int))) := by
  intro r
  induction r with
  | zero => intro attempt clock sleeps tries _ h0; exact absurd h0 (by omega)
  | succ r ih =>
    intro attempt clock sleeps tries hsum _
    rcases Nat.eq_zero_or_pos r with hr | hr
    · subst hr
      have hc : ¬ attempt < mr - 1 := by omega
      have hca : causes (mr - 1) = causes attempt := by
        rw [show mr - 1 = attempt by omega]
      simp [execGo, h attempt, hc, hca]
    · have hc : attempt < mr - 1 := by omega
      have step := ih (attempt + 1) (clock + rd * (attempt + 1))
        (sleeps ++ [rd * (attempt + 1)]) (tries + 1) (by omega) hr
      rw [show r + 1 - 1 = (r - 1) + 1 by omega, range_map_shift]
      simp only [execGo, h attempt, hc, if_pos]
      refine ⟨step.1, by rw [step.2.1]; omega, ?_⟩
      rw [step.2.2, List.append_assoc, List.singleton_append]
      refine congrArg _ ?_
      refine congrArg₂ _ (by ring) ?_
      apply List.map_congr_left
      intro j _
      push_cast
      ring

/-- Shape of every `execGo` result: a returned payload comes unchanged
from a successful attempt within the budget, otherwise the executor
raises, or — only when it started past the budget or the final attempt
took the rate-limit `continue` path — returns `None`. -/
theorem execGo_result_shape (script : Nat → AttemptResult) (mr : Nat) (rd : Int) :
    ∀ r attempt clock sleeps tries, attempt + r = mr →
      (∃ p, (execGo script mr rd attempt r clock sleeps tries).res = .retData p ∧
          ∃ i, attempt ≤ i ∧ i < mr ∧ script i = .success p) ∨
      (∃ e, (execGo script mr rd attempt r clock sleeps tries).res = .raised e) ∨
      ((execGo script mr rd attempt r clock sleeps tries).res = .retNone ∧
        (attempt = mr ∨ rlContinue (script (mr - 1)) = true)) := by
  intro r
  induction r with
  | zero =>
    intro attempt clock sleeps tries hsum
    right; right
    exact ⟨rfl, Or.inl (by omega)⟩
  | succ r ih =>
    intro attempt clock sleeps tries hsum
    cases hs : script attempt with
    | success p =>
      left
      exact ⟨p, by simp [execGo, hs], attempt, le_refl _, by omega, hs⟩
    | transportError cause =>
      by_cases hc : attempt < mr - 1
      · have step := ih (attempt + 1) (clock + rd * (attempt + 1))
          (sleeps ++ [rd * (attempt + 1)]) (tries + 1) (by omega)
        simp only [execGo, hs, hc, if_pos]
        rcases step with ⟨p, hp, i, hi1, hi2, hi3⟩ | ⟨e, he⟩ | ⟨hn, hend⟩
        · exact Or.inl ⟨p, hp, i, by omega, hi2, hi3⟩
        · exact Or.inr (Or.inl ⟨e, he⟩)
        · refine Or.inr (Or.inr ⟨hn, Or.inr ?_⟩)
          rcases hend with hend | hend
          · omega
          · exact hend
      · right; left
        exact ⟨.transport cause, by simp [execGo, hs, hc]⟩
    | graphqlErrors msg reset =>
      by_cases hrl : (isRateLimitMsg msg && reset != 0) = true
      · have step := ih (attempt + 1) (clock + (max (reset - clock) 0 + 5))
          (sleeps ++ [max (reset - clock) 0 + 5]) (tries + 1) (by omega)
        simp only [execGo, hs, hrl, if_pos]
        rcases step with ⟨p, hp, i, hi1, hi2, hi3⟩ | ⟨e, he⟩ | ⟨hn, hend⟩
        · exact Or.inl ⟨p, hp, i, by omega, hi2, hi3⟩
        · exact Or.inr (Or.inl ⟨e, he⟩)
        · refine Or.inr (Or.inr ⟨hn, Or.inr ?_⟩)
          rcases hend with hend | hend
          · have : attempt = mr - 1 := by omega
            rw [← this, hs]
            simpa [rlContinue] using hrl
          · exact hend
      · by_cases hc : attempt < mr - 1
        · have step := ih (attempt + 1) (clock + rd)
            (sleeps ++ [rd]) (tries + 1) (by omega)
          simp only [execGo, hs, hrl, hc, if_pos, if_neg, Bool.not_eq_true]
          rcases step with ⟨p, hp, i, hi1, hi2, hi3⟩ | ⟨e, he⟩ | ⟨hn, hend⟩
          · exact Or.inl ⟨p, hp, i, by omega, hi2, hi3⟩
          · exact Or.inr (Or.inl ⟨e, he⟩)
          · refine Or.inr (Or.inr ⟨hn, Or.inr ?_⟩)
            rcases hend with hend | hend
            · omega
            · exact hend
        · right; left
          exact ⟨.graphql msg, by simp [execGo, hs, hrl, hc]⟩

/-- Each `execGo` iteration makes at most one attempt: the attempt count
never exceeds the remaining iteration budget. -/
theorem execGo_tries_le (script : Nat → AttemptResult) (mr : Nat) (rd : Int) :
    ∀ r attempt clock sleeps tries,
      (execGo script mr rd attempt r clock sleeps tries).tries ≤ tries + r := by
  intro r
  induction r with
  | zero => intro attempt clock sleeps tries; simp [execGo]
  | succ r ih =>
    intro attempt clock sleeps tries
    cases hs : script attempt with
    | success p => simp [execGo, hs]
    | transportError cause =>
      by_cases hc : attempt < mr - 1
      · simp only [execGo, hs, hc, if_pos]
        have := ih (attempt + 1) (clock + rd * (attempt + 1))
          (sleeps ++ [rd * (attempt + 1)]) (tries + 1)
        omega
      · simp [execGo, hs, hc]
    | graphqlErrors msg reset =>
      by_cases hrl : (isRateLimitMsg msg && reset != 0) = true
      · simp only [execGo, hs, hrl, if_pos]
        have := ih (attempt + 1) (clock + (max (reset - clock) 0 + 5))
          (sleeps ++ [max (reset - clock) 0 + 5]) (tries + 1)
        omega
      · by_cases hc : attempt < mr - 1
        · simp only [execGo, hs, hrl, hc, if_pos, if_neg, Bool.not_eq_true]
          have := ih (attempt + 1) (clock + rd) (sleeps ++ [rd]) (tries + 1)
          omega
        · simp [execGo, hs, hrl, hc]

/-- C8: when every transport attempt fails, the executor makes exactly
`max_retries` attempts, raises a fetch failure wrapping the cause of the
last attempt, and the delays between consecutive attempts are
`retry_delay * 1, retry_delay * 2, ...`. -/
theorem c8_retry_exhaustion (script : Nat → AttemptResult) (causes : Nat → String)
    (mr : Nat) (rd clock : Int) (hmr : 0 < mr)
    (h : ∀ i, script i = .transportError (causes i)) :
    (execute_graphql_with_retry script mr rd clock).res =
        .raised (.transport (causes (mr - 1))) ∧
      (execute_graphql_with_retry script mr rd clock).tries = mr ∧
      (execute_graphql_with_retry script mr rd clock).sleeps =
        (List.range (mr - 1)).map (fun i : Nat => rd * ((i : Int) + 1)) := by
  have main := execGo_transport script causes h mr rd mr 0 clock [] 0 (by omega) hmr
  refine ⟨main.1, by simpa using main.2.1, ?_⟩
  rw [show (execute_graphql_with_retry script mr rd clock) =
        execGo script mr rd 0 mr clock [] 0 from rfl, main.2.2]
  simp only [List.nil_append]
  apply List.map_congr_left
  intro j _
  push_cast
  ring

/-- Witness for C8 at `max_retries = 3`, `retry_delay = 5`: three attempts,
a raised transport failure wrapping the last cause, delays 5 and 10. -/
theorem c8_retry_exhaustion_witness :
    0 < 3 ∧
      ((execute_graphql_with_retry (fun _ => .transportError "boom") 3 5 0).res =
          .raised (.transport "boom") ∧
        (execute_graphql_with_retry (fun _ => .transportError "boom") 3 5 0).tries = 3 ∧
        (execute_graphql_with_retry (fun _ => .transportError "boom") 3 5 0).sleeps =
          (List.range 2).map (fun i : Nat => 5 * ((i : Int) + 1))) :=
  ⟨by decide,
   c8_retry_exhaustion (fun _ => .transportError "boom") (fun _ => "boom") 3 5 0
     (by decide) (fun _ => rfl)⟩

/-- C2 amended: the executor returns the payload of some successful
attempt within the budget unchanged, or raises after exhausting retries —
or returns `None`, which happens only when `max_retries = 0` or when the
final budget slot was consumed by the rate-limit `continue` path. -/
theorem c2_amended_result_shape (script : Nat → AttemptResult) (mr : Nat)
    (rd clock : Int) :
    (∃ p, (execute_graphql_with_retry script mr rd clock).res = .retData p ∧
        ∃ i, i < mr ∧ script i = .success p) ∨
      (∃ e, (execute_graphql_with_retry script mr rd clock).res = .raised e) ∨
      ((execute_graphql_with_retry script mr rd clock).res = .retNone ∧
        (mr = 0 ∨ rlContinue (script (mr - 1)) = true)) := by
  have main := execGo_result_shape script mr rd mr 0 clock [] 0 (by omega)
  rcases main with ⟨p, hp, i, _, hi2, hi3⟩ | ⟨e, he⟩ | ⟨hn, hend⟩
  · exact Or.inl ⟨p, hp, i, hi2, hi3⟩
  · exact Or.inr (Or.inl ⟨e, he⟩)
  · refine Or.inr (Or.inr ⟨hn, ?_⟩)
    rcases hend with hend | hend
    · exact Or.inl hend.symm
    · exact Or.inr hend

/-- Witness for C2's amended statement at the all-rate-limit script. -/
theorem c2_amended_result_shape_witness :
    (∃ p, (execute_graphql_with_retry rateLimitScript 3 5 0).res = .retData p ∧
        ∃ i, i < 3 ∧ rateLimitScript i = .success p) ∨
      (∃ e, (execute_graphql_with_retry rateLimitScript 3 5 0).res = .raised e) ∨
      ((execute_graphql_with_retry rateLimitScript 3 5 0).res = .retNone ∧
        (3 = 0 ∨ rlContinue (rateLimitScript (3 - 1)) = true)) :=
  c2_amended_result_shape rateLimitScript 3 5 0

/-- C3 amended: a rate-limit error with a nonzero reset value makes the
executor sleep `max (reset - now) 0 + 5` and retry, but the retry consumes
a retry-count slot (execution continues at attempt index 1 with one try
already used), and the total number of attempts never exceeds
`max_retries`. -/
theorem c3_amended_rate_limit (script : Nat → AttemptResult) (mr : Nat)
    (rd clock : Int) (msg : String) (reset : Int) (hmr : 0 < mr)
    (h0 : script 0 = .graphqlErrors msg reset)
    (hrl : isRateLimitMsg msg = true) (hreset : reset ≠ 0) :
    (execute_graphql_with_retry script mr rd clock).tries ≤ mr ∧
      execute_graphql_with_retry script mr rd clock =
        execGo script mr rd 1 (mr - 1) (clock + (max (reset - clock) 0 + 5))
          [max (reset - clock) 0 + 5] 1 := by
  constructor
  · have := execGo_tries_le script mr rd mr 0 clock [] 0
    simpa using this
  · obtain ⟨m, rfl⟩ : ∃ m, mr = m + 1 := ⟨mr - 1, by omega⟩
    show execGo script (m + 1) rd 0 (m + 1) clock [] 0 = _
    simp [execGo, h0, hrl, hreset]

/-- Witness for C3's amended statement: one rate-limit response with reset
10 units in the future, `max_retries = 3`, consumes one slot and sleeps
15 units. -/
theorem c3_amended_rate_limit_witness :
    0 < 3 ∧ isRateLimitMsg "API rate limit exceeded" = true ∧ (10 : Int) ≠ 0 ∧
      ((execute_graphql_with_retry rateLimitScript 3 5 0).tries ≤ 3 ∧
        execute_graphql_with_retry rateLimitScript 3 5 0 =
          execGo rateLimitScript 3 5 1 (3 - 1) (0 + (max ((10 : Int) - 0) 0 + 5))
            [max ((10 : Int) - 0) 0 + 5] 1) :=
  ⟨by decide, by decide, by decide,
   c3_amended_rate_limit rateLimitScript 3 5 0 "API rate limit exceeded" 10
     (by decide) rfl (by decide) (by decide)⟩

/-! ### Pagination-controller lemmas -/

/-- Every checkpoint the loop persists satisfies
`total_count = len(discussions)`, provided the already-persisted ones
do. -/
theorem fetchLoop_count_inv (script : Nat → PageOutcome) (now : String) :
    ∀ fuel page all cursor hm cps counts reqs clock,
      (∀ cp ∈ cps, cp.total_count = cp.discussions.length) →
      ∀ cp ∈ (fetchLoop script now fuel page all cursor hm cps counts reqs
          clock).checkpoints,
        cp.total_count = cp.discussions.length := by
  intro fuel
  induction fuel with
  | zero =>
    intro page all cursor hm cps counts reqs clock hinv
    rw [fetchLoop]
    cases hm with
    | false => simpa [finishRun] using hinv
    | true => simpa using hinv
  | succ f ih =>
    intro page all cursor hm cps counts reqs clock hinv
    rw [fetchLoop]
    cases hm with
    | false => simpa [finishRun] using hinv
    | true =>
      rw [if_neg (by decide : ¬(true = false))]
      cases hpo : script page with
      | interrupt =>
        intro cp hcp
        simp only [List.mem_append, List.mem_singleton] at hcp
        rcases hcp with hcp | rfl
        · exact hinv cp hcp
        · simp [mkCheckpoint]
      | attempts att =>
        cases hres : (execute_graphql_with_retry att 3 5 clock).res with
        | raised e =>
          simp only [hres]
          intro cp hcp
          simp only [List.mem_append, List.mem_singleton] at hcp
          rcases hcp with hcp | rfl
          · exact hinv cp hcp
          · simp [mkCheckpoint]
        | retNone =>
          simpa [hres, finishRun] using hinv
        | retData p =>
          cases p with
          | noData => simpa [hres, finishRun] using hinv
          | withData pd =>
            simp only [hres]
            apply ih
            intro cp hcp
            simp only [List.mem_append, List.mem_singleton] at hcp
            rcases hcp with hcp | rfl
            · exact hinv cp hcp
            · simp [mkCheckpoint]

/-- When the loop hands a final artifact to `save_final_result`, the
artifact's `total_count` is the length of its discussions list, and that
length accounts exactly for the initial accumulator plus all per-page
item counts. -/
theorem fetchLoop_artifact_count (script : Nat → PageOutcome) (now : String) :
    ∀ fuel page all cursor hm cps counts reqs clock,
      ∀ a, (fetchLoop script now fuel page all cursor hm cps counts reqs
          clock).finalArtifact = some a →
        a.total_count = a.discussions.length ∧
          a.discussions.length + counts.sum =
            all.length + (fetchLoop script now fuel page all cursor hm cps counts
              reqs clock).pageCounts.sum := by
  intro fuel
  induction fuel with
  | zero =>
    intro page all cursor hm cps counts reqs clock a ha
    rw [fetchLoop] at ha ⊢
    cases hm with
    | false =>
      simp only [finishRun, if_pos, Option.some_inj] at ha
      subst ha
      simp [build_output_data, finishRun]
    | true => simp at ha
  | succ f ih =>
    intro page all cursor hm cps counts reqs clock a ha
    rw [fetchLoop] at ha ⊢
    cases hm with
    | false =>
      simp only [finishRun, if_pos, Option.some_inj] at ha
      subst ha
      simp [build_output_data, finishRun]
    | true =>
      rw [if_neg (by decide : ¬(true = false))] at ha ⊢
      cases hpo : script page with
      | interrupt =>
        rw [hpo] at ha
        simp at ha
      | attempts att =>
        rw [hpo] at ha
        cases hres : (execute_graphql_with_retry att 3 5 clock).res with
        | raised e =>
          simp only [hres] at ha
          simp at ha
        | retNone =>
          simp only [hres, finishRun, Option.some_inj] at ha
          subst ha
          simp only [hres]
          simp [build_output_data, finishRun]
        | retData p =>
          cases p with
          | noData =>
            simp only [hres, finishRun, Option.some_inj] at ha
            subst ha
            simp only [hres]
            simp [build_output_data, finishRun]
          | withData pd =>
            simp only [hres] at ha ⊢
            have step := ih _ _ _ _ _ _ _ _ a ha
            refine ⟨step.1, ?_⟩
            have h2 := step.2
            simp only [List.sum_append, List.sum_cons, List.sum_nil,
              List.length_append, List.length_map, add_zero] at h2 ⊢
            omega

/-- Every checkpoint the loop persists, and its terminal state, satisfy
`has_more = false → last_cursor = none`, provided the already-persisted
checkpoints and the incoming state do. -/
theorem fetchLoop_cursor_inv (script : Nat → PageOutcome) (now : String) :
    ∀ fuel page all cursor hm cps counts reqs clock,
      (∀ cp ∈ cps, cp.has_more = false → cp.last_cursor = none) →
      (hm = false → cursor = none) →
      (∀ cp ∈ (fetchLoop script now fuel page all cursor hm cps counts reqs
          clock).checkpoints,
        cp.has_more = false → cp.last_cursor = none) ∧
      ((fetchLoop script now fuel page all cursor hm cps counts reqs
          clock).endHasMore = false →
        (fetchLoop script now fuel page all cursor hm cps counts reqs
          clock).endCursor = none) := by
  intro fuel
  induction fuel with
  | zero =>
    intro page all cursor hm cps counts reqs clock hinv hcur
    rw [fetchLoop]
    cases hm with
    | false => exact ⟨by simpa [finishRun] using hinv, fun _ => by simpa [finishRun] using hcur rfl⟩
    | true => exact ⟨by simpa using hinv, by simp⟩
  | succ f ih =>
    intro page all cursor hm cps counts reqs clock hinv hcur
    rw [fetchLoop]
    cases hm with
    | false => exact ⟨by simpa [finishRun] using hinv, fun _ => by simpa [finishRun] using hcur rfl⟩
    | true =>
      rw [if_neg (by decide : ¬(true = false))]
      cases hpo : script page with
      | interrupt =>
        refine ⟨?_, by simp⟩
        intro cp hcp
        simp only [List.mem_append, List.mem_singleton] at hcp
        rcases hcp with hcp | rfl
        · exact hinv cp hcp
        · intro hfalse; exact absurd hfalse (by simp [mkCheckpoint])
      | attempts att =>
        cases hres : (execute_graphql_with_retry att 3 5 clock).res with
        | raised e =>
          simp only [hres]
          refine ⟨?_, by simp⟩
          intro cp hcp
          simp only [List.mem_append, List.mem_singleton] at hcp
          rcases hcp with hcp | rfl
          · exact hinv cp hcp
          · intro hfalse; exact absurd hfalse (by simp [mkCheckpoint])
        | retNone =>
          simp only [hres]
          exact ⟨by simpa [finishRun] using hinv, by simp [finishRun]⟩
        | retData p =>
          cases p with
          | noData =>
            simp only [hres]
            exact ⟨by simpa [finishRun] using hinv, by simp [finishRun]⟩
          | withData pd =>
            simp only [hres]
            apply ih
            · intro cp hcp
              simp only [List.mem_append, List.mem_singleton] at hcp
              rcases hcp with hcp | rfl
              · exact hinv cp hcp
              · intro hfalse
                simp only [mkCheckpoint] at hfalse ⊢
                simp [hfalse]
            · intro hfalse
              simp [hfalse]

/-- When the loop's outcome is a re-raised fetch failure, no final
artifact was produced, the checkpoint file was not cleared, and the last
persisted checkpoint snapshots the state current at the failure (with
`has_more = true`, since the loop was mid-flight). -/
theorem fetchLoop_raise_path (script : Nat → PageOutcome) (now : String) :
    ∀ fuel page all cursor hm cps counts reqs clock e,
      (fetchLoop script now fuel page all cursor hm cps counts reqs
          clock).outcome = .raised (.fetch e) →
        (fetchLoop script now fuel page all cursor hm cps counts reqs
            clock).finalArtifact = none ∧
          (fetchLoop script now fuel page all cursor hm cps counts reqs
            clock).checkpointCleared = false ∧
          ∃ ds cur, (fetchLoop script now fuel page all cursor hm cps counts reqs
            clock).checkpoints.getLast? = some (mkCheckpoint ds cur true) := by
  intro fuel
  induction fuel with
  | zero =>
    intro page all cursor hm cps counts reqs clock e h
    rw [fetchLoop] at h ⊢
    cases hm with
    | false => simp [finishRun] at h
    | true => simp at h
  | succ f ih =>
    intro page all cursor hm cps counts reqs clock e h
    rw [fetchLoop] at h ⊢
    cases hm with
    | false => simp [finishRun] at h
    | true =>
      rw [if_neg (by decide : ¬(true = false))] at h ⊢
      cases hpo : script page with
      | interrupt =>
        rw [hpo] at h
        simp at h
      | attempts att =>
        rw [hpo] at h
        cases hres : (execute_graphql_with_retry att 3 5 clock).res with
        | raised e' =>
          simp only [hres] at h ⊢
          refine ⟨by simp, by simp, all, cursor, by simp [List.getLast?_concat]⟩
        | retNone =>
          simp only [hres] at h
          simp [finishRun] at h
        | retData p =>
          cases p with
          | noData =>
            simp only [hres] at h
            simp [finishRun] at h
          | withData pd =>
            simp only [hres] at h ⊢
            exact ih _ _ _ _ _ _ _ _ e h

/-- When the loop's outcome is a normal return but no final artifact was
produced — which happens exactly on the caught user interrupt — the
checkpoint file was not cleared and the last persisted checkpoint holds
the returned accumulator together with the terminal cursor and
`has_more`. -/
theorem fetchLoop_interrupt_path (script : Nat → PageOutcome) (now : String) :
    ∀ fuel page all cursor hm cps counts reqs clock ds,
      (fetchLoop script now fuel page all cursor hm cps counts reqs
          clock).outcome = .returned ds →
      (fetchLoop script now fuel page all cursor hm cps counts reqs
          clock).finalArtifact = none →
        (fetchLoop script now fuel page all cursor hm cps counts reqs
            clock).checkpointCleared = false ∧
          (fetchLoop script now fuel page all cursor hm cps counts reqs
            clock).checkpoints.getLast? =
            some (mkCheckpoint ds
              (fetchLoop script now fuel page all cursor hm cps counts reqs
                clock).endCursor
              (fetchLoop script now fuel page all cursor hm cps counts reqs
                clock).endHasMore) := by
  intro fuel
  induction fuel with
  | zero =>
    intro page all cursor hm cps counts reqs clock ds h1 h2
    rw [fetchLoop] at h1 h2 ⊢
    cases hm with
    | false => simp [finishRun] at h2
    | true => simp at h1
  | succ f ih =>
    intro page all cursor hm cps counts reqs clock ds h1 h2
    rw [fetchLoop] at h1 h2 ⊢
    cases hm with
    | false => simp [finishRun] at h2
    | true =>
      rw [if_neg (by decide : ¬(true = false))] at h1 h2 ⊢
      cases hpo : script page with
      | interrupt =>
        rw [hpo] at h1 h2
        have hds : ds = all := by
          simp only [Outcome.returned.injEq] at h1
          exact h1.symm
        subst hds
        exact ⟨rfl, List.getLast?_concat _⟩
      | attempts att =>
        rw [hpo] at h1 h2
        cases hres : (execute_graphql_with_retry att 3 5 clock).res with
        | raised e =>
          simp only [hres] at h1
          simp at h1
        | retNone =>
          simp only [hres] at h2
          simp [finishRun] at h2
        | retData p =>
          cases p with
          | noData =>
            simp only [hres] at h2
            simp [finishRun] at h2
          | withData pd =>
            simp only [hres] at h1 h2 ⊢
            exact ih _ _ _ _ _ _ _ _ ds h1 h2

/-- C6: at every checkpoint `fetch_discussions` persists,
`total_count = len(discussions)`; and the final artifact, when one is
written, has `total_count = len(discussions)` equal to the initial
checkpoint length plus the sum of the per-page item counts. -/
theorem c6_count_invariant (file : CheckpointFile) (script : Nat → PageOutcome)
    (now : String) (fuel : Nat) :
    (∀ cp ∈ (fetch_discussions file script now fuel).checkpoints,
        cp.total_count = cp.discussions.length) ∧
      ∀ a, (fetch_discussions file script now fuel).finalArtifact = some a →
        a.total_count = a.discussions.length ∧
          a.discussions.length =
            ((load_checkpoint file).discussions.getD []).length +
              (fetch_discussions file script now fuel).pageCounts.sum := by
  simp only [fetch_discussions]
  cases hd : (load_checkpoint file).discussions with
  | none => simp
  | some all =>
    cases hc : (load_checkpoint file).last_cursor with
    | none => simp
    | some cursor =>
      cases hh : (load_checkpoint file).has_more with
      | none => simp
      | some hm =>
        refine ⟨fetchLoop_count_inv script now fuel 0 all cursor hm [] [] 0 0
          (by simp), ?_⟩
        intro a ha
        have step := fetchLoop_artifact_count script now fuel 0 all cursor hm
          [] [] 0 0 a ha
        refine ⟨step.1, ?_⟩
        have h2 := step.2
        simp only [List.sum_nil, add_zero] at h2
        simp only [Option.getD_some]
        omega

/-- Witness for C6 on the malformed-page scenario run: its page-1
checkpoint and its (buggy, but well-counted) final artifact satisfy the
count invariant. -/
theorem c6_count_invariant_witness :
    ({ discussions := [disc1], last_cursor := some "C1", has_more := true,
        total_count := 1 } : Checkpoint) ∈
        (fetch_discussions .absent malformedScript "now" 5).checkpoints ∧
      ({ discussions := [disc1], last_cursor := some "C1", has_more := true,
          total_count := 1 } : Checkpoint).total_count =
        ({ discussions := [disc1], last_cursor := some "C1", has_more := true,
            total_count := 1 } : Checkpoint).discussions.length ∧
      (fetch_discussions .absent malformedScript "now" 5).finalArtifact =
        some { repository := "helloamger/JiNan-Company-Rating",
               category_id := CATEGORY_ID, total_count := 1,
               fetched_at := "now", discussions := [disc1] } ∧
      (({ repository := "helloamger/JiNan-Company-Rating",
          category_id := CATEGORY_ID, total_count := 1,
          fetched_at := "now", discussions := [disc1] } : FinalArtifact).total_count =
          ({ repository := "helloamger/JiNan-Company-Rating",
             category_id := CATEGORY_ID, total_count := 1,
             fetched_at := "now", discussions := [disc1] } : FinalArtifact).discussions.length ∧
        ({ repository := "helloamger/JiNan-Company-Rating",
           category_id := CATEGORY_ID, total_count := 1,
           fetched_at := "now", discussions := [disc1] } : FinalArtifact).discussions.length =
          ((load_checkpoint .absent).discussions.getD []).length +
            (fetch_discussions .absent malformedScript "now" 5).pageCounts.sum) :=
  ⟨by decide,
   (c6_count_invariant .absent malformedScript "now" 5).1 _ (by decide),
   by decide,
   (c6_count_invariant .absent malformedScript "now" 5).2 _ (by decide)⟩

/-- C7: every persisted checkpoint and the terminal loop state satisfy
`has_more = false → last_cursor = none`, provided the checkpoint loaded at
startup already does (every checkpoint the program itself writes does, so
the property is preserved across runs). -/
theorem c7_cursor_invariant (file : CheckpointFile) (script : Nat → PageOutcome)
    (now : String) (fuel : Nat)
    (hinit : (load_checkpoint file).has_more = some false →
      (load_checkpoint file).last_cursor = some none) :
    (∀ cp ∈ (fetch_discussions file script now fuel).checkpoints,
        cp.has_more = false → cp.last_cursor = none) ∧
      ((fetch_discussions file script now fuel).endHasMore = false →
        (fetch_discussions file script now fuel).endCursor = none) := by
  simp only [fetch_discussions]
  cases hd : (load_checkpoint file).discussions with
  | none => simp
  | some all =>
    cases hc : (load_checkpoint file).last_cursor with
    | none => simp
    | some cursor =>
      cases hh : (load_checkpoint file).has_more with
      | none => simp
      | some hm =>
        refine fetchLoop_cursor_inv script now fuel 0 all cursor hm [] [] 0 0
          (by simp) ?_
        intro hfalse
        have hsome := hinit (by rw [hh, hfalse])
        rw [hc] at hsome
        exact Option.some_inj.mp hsome

/-- Witness for C7 on the malformed-page scenario run. -/
theorem c7_cursor_invariant_witness :
    ((load_checkpoint .absent).has_more = some false →
        (load_checkpoint .absent).last_cursor = some none) ∧
      ((∀ cp ∈ (fetch_discussions .absent malformedScript "now" 5).checkpoints,
          cp.has_more = false → cp.last_cursor = none) ∧
        ((fetch_discussions .absent malformedScript "now" 5).endHasMore = false →
          (fetch_discussions .absent malformedScript "now" 5).endCursor = none)) :=
  ⟨by decide, c7_cursor_invariant .absent malformedScript "now" 5 (by decide)⟩

/-- C4 amended: when the executor raises, the controller does not absorb
the failure — its own outcome is the re-raised fetch failure — but before
propagating it persists one more checkpoint of the in-flight state
(`has_more = true`), writes no final artifact, and does not clear the
checkpoint file. -/
theorem c4_amended_fetch_error (file : CheckpointFile) (script : Nat → PageOutcome)
    (now : String) (fuel : Nat) (e : ExnMsg)
    (h : (fetch_discussions file script now fuel).outcome = .raised (.fetch e)) :
    (fetch_discussions file script now fuel).finalArtifact = none ∧
      (fetch_discussions file script now fuel).checkpointCleared = false ∧
      ∃ ds cur, (fetch_discussions file script now fuel).checkpoints.getLast? =
        some (mkCheckpoint ds cur true) := by
  simp only [fetch_discussions] at h ⊢
  cases hd : (load_checkpoint file).discussions with
  | none => rw [hd] at h; simp at h
  | some all =>
    cases hc : (load_checkpoint file).last_cursor with
    | none => rw [hd, hc] at h; simp at h
    | some cursor =>
      cases hh : (load_checkpoint file).has_more with
      | none => rw [hd, hc, hh] at h; simp at h
      | some hm =>
        rw [hd, hc, hh] at h
        exact fetchLoop_raise_path script now fuel 0 all cursor hm [] [] 0 0 e h

/-- Witness for C4's amended statement on the always-failing-transport
run. -/
theorem c4_amended_fetch_error_witness :
    (fetch_discussions .absent transportFailScript "t" 3).outcome =
        .raised (.fetch (.transport "conn reset")) ∧
      ((fetch_discussions .absent transportFailScript "t" 3).finalArtifact = none ∧
        (fetch_discussions .absent transportFailScript "t" 3).checkpointCleared = false ∧
        ∃ ds cur, (fetch_discussions .absent transportFailScript "t" 3).checkpoints.getLast? =
          some (mkCheckpoint ds cur true)) :=
  ⟨by decide,
   c4_amended_fetch_error .absent transportFailScript "t" 3 (.transport "conn reset")
     (by decide)⟩

/-- C5 amended: when the loop ends with a normal return but no final
artifact — the signature of a caught interrupt — the controller has
persisted a checkpoint holding the returned accumulator together with the
terminal cursor and `has_more`, has not cleared the checkpoint file, and
hands the accumulator back to the caller instead of re-raising the
interruption. -/
theorem c5_amended_interrupt_checkpoint (file : CheckpointFile)
    (script : Nat → PageOutcome) (now : String) (fuel : Nat) (ds : List Discussion)
    (h1 : (fetch_discussions file script now fuel).outcome = .returned ds)
    (h2 : (fetch_discussions file script now fuel).finalArtifact = none) :
    (fetch_discussions file script now fuel).checkpointCleared = false ∧
      (fetch_discussions file script now fuel).checkpoints.getLast? =
        some (mkCheckpoint ds (fetch_discussions file script now fuel).endCursor
          (fetch_discussions file script now fuel).endHasMore) := by
  simp only [fetch_discussions] at h1 h2 ⊢
  cases hd : (load_checkpoint file).discussions with
  | none => rw [hd] at h1; simp at h1
  | some all =>
    cases hc : (load_checkpoint file).last_cursor with
    | none => rw [hd, hc] at h1; simp at h1
    | some cursor =>
      cases hh : (load_checkpoint file).has_more with
      | none => rw [hd, hc, hh] at h1; simp at h1
      | some hm =>
        rw [hd, hc, hh] at h1 h2
        exact fetchLoop_interrupt_path script now fuel 0 all cursor hm [] [] 0 0 ds h1 h2

/-- Witness for C5's amended statement on the immediately-interrupted
run. -/
theorem c5_amended_interrupt_checkpoint_witness :
    (fetch_discussions .absent interruptScript "t" 3).outcome = .returned [] ∧
      (fetch_discussions .absent interruptScript "t" 3).finalArtifact = none ∧
      ((fetch_discussions .absent interruptScript "t" 3).checkpointCleared = false ∧
        (fetch_discussions .absent interruptScript "t" 3).checkpoints.getLast? =
          some (mkCheckpoint []
            (fetch_discussions .absent interruptScript "t" 3).endCursor
            (fetch_discussions .absent interruptScript "t" 3).endHasMore)) :=
  ⟨by decide, by decide,
   c5_amended_interrupt_checkpoint .absent interruptScript "t" 3 [] (by decide)
     (by decide)⟩

/-- C10: a checkpoint file that exists and parses is returned by
`load_checkpoint` unchanged, and when it is missing any of the keys
`discussions`, `last_cursor` or `has_more`, the run raises the key-lookup
error before any page is requested — no fallback to the default empty
checkpoint, no executor call, no checkpoint write. -/
theorem c10_missing_key (raw : RawCheckpoint) (script : Nat → PageOutcome)
    (now : String) (fuel : Nat)
    (h : raw.discussions = none ∨ raw.last_cursor = none ∨ raw.has_more = none) :
    load_checkpoint (.content raw) = raw ∧
      fetch_discussions (.content raw) script now fuel =
        { outcome := .raised .keyError, checkpoints := [], finalArtifact := none,
          checkpointCleared := false, pagesRequested := 0, pageCounts := [],
          endCursor := none, endHasMore := true, clock := 0 } := by
  refine ⟨rfl, ?_⟩
  obtain ⟨d, c, b, t⟩ := raw
  rcases h with rfl | rfl | rfl
  · rfl
  · cases d <;> rfl
  · cases d with
    | none => rfl
    | some all => cases c <;> rfl

/-! ### Finalizer: the two encodings of the final artifact (C9)

`save_final_result` serializes the same `output_data` dict twice:
`json.dump(output_data, f, ensure_ascii=False, indent=2)` into the plain
file and `gzip` of `json.dumps(output_data, ensure_ascii=False)` encoded
as UTF-8 into the compressed file.  The JSON encoder and the gzip codec
are external collaborators of the program (the spec excludes "the HTTP
transport and JSON parsing" and treats the compression codec as a
stream-transform capability), so they are modelled: the encoder as a
renderer of the artifact's fixed schema parameterized by the physical
separators/indentation that `indent=2` versus the compact default
control, and the codec as an invertible transform on the byte stream.
Logical JSON content is compared by stripping whitespace outside string
literals. -/

/-- Modelled from the spec: JSON string escaping of the external encoder
(it must escape the quote and the escape character; the newline case is
included so that every control of the comparison stays inside the string
literal). -/
def escChar (c : Char) : List Char :=
  if c == '"' || c == '\\' then ['\\', c]
  else if c == '\n' then ['\\', 'n']
  else [c]

def escStr (s : String) : List Char := (s.data.map escChar).flatten

/-- Rendered JSON string literal. -/
def jstr (s : String) : List Char := '"' :: escStr s ++ ['"']

def digitChar (n : Nat) : Char := Char.ofNat (48 + n)

/-- Decimal rendering of a natural number. -/
def natChars (n : Nat) : List Char :=
  if n < 10 then [digitChar n]
  else natChars (n / 10) ++ [digitChar (n % 10)]
decreasing_by
  simp_wf
  exact Nat.div_lt_self (by omega) (by omega)

def lcurl : Char := Char.ofNat 123

def rcurl : Char := Char.ofNat 125

/-- Interleave a separator between rendered pieces. -/
def joinSep (sep : List Char) : List (List Char) → List Char
  | [] => []
  | [v] => v
  | v :: vs => v ++ sep ++ joinSep sep vs

/-- One `"key": value` member, with `kvPad` the space the encoder puts
after the colon. -/
def renderKV (kvPad : List Char) (kv : String × List Char) : List Char :=
  jstr kv.1 ++ [':'] ++ kvPad ++ kv.2

/-- Modelled from the spec: a JSON object rendered by the external
encoder.  `pre` is emitted after the opening brace, `mid` between
members, `post` before the closing brace — newline-plus-indent under
`indent=2`, nothing or a single space in the compact form. -/
def renderObj (pre mid post kvPad : List Char)
    (fields : List (String × List Char)) : List Char :=
  lcurl :: pre ++ joinSep mid (fields.map (renderKV kvPad)) ++ post ++ [rcurl]

/-- Modelled from the spec: a JSON array rendered by the external
encoder; an empty array renders as `[]` in every mode. -/
def renderArr (pre mid post : List Char) (elems : List (List Char)) : List Char :=
  match elems with
  | [] => ['[', ']']
  | e :: es => '[' :: pre ++ joinSep mid (e :: es) ++ post ++ [']']

/-- The members of one serialized discussion dict, in insertion order. -/
def discFieldVals (d : Discussion) : List (String × List Char) :=
  [("number", natChars d.number), ("title", jstr d.title),
   ("created_at", jstr d.created_at), ("url", jstr d.url),
   ("bodyHTML", jstr d.bodyHTML)]

/-- Physical layout of one serialization mode: separators for the
top-level object, the discussions array, and the nested discussion
objects. -/
structure JsonFmt where
  oPre : List Char
  oMid : List Char
  oPost : List Char
  kvPad : List Char
  aPre : List Char
  aMid : List Char
  aPost : List Char
  dPre : List Char
  dMid : List Char
  dPost : List Char

/-- The whole final artifact rendered in one mode, member order exactly
that of `output_data`. -/
def dumpArtifact (fmt : JsonFmt) (a : FinalArtifact) : List Char :=
  renderObj fmt.oPre fmt.oMid fmt.oPost fmt.kvPad
    [("repository", jstr a.repository), ("category_id", jstr a.category_id),
     ("total_count", natChars a.total_count), ("fetched_at", jstr a.fetched_at),
     ("discussions", renderArr fmt.aPre fmt.aMid fmt.aPost
       (a.discussions.map (fun d =>
         renderObj fmt.dPre fmt.dMid fmt.dPost fmt.kvPad (discFieldVals d))))]

/-- Layout of `json.dump(..., indent=2)`: newline plus 2/4/6 spaces of
indentation, `": "` after keys. -/
def prettyFmt : JsonFmt :=
  { oPre := ['\n', ' ', ' '], oMid := [',', '\n', ' ', ' '], oPost := ['\n'],
    kvPad := [' '],
    aPre := ['\n', ' ', ' ', ' ', ' '], aMid := [',', '\n', ' ', ' ', ' ', ' '],
    aPost := ['\n', ' ', ' '],
    dPre := ['\n', ' ', ' ', ' ', ' ', ' ', ' '],
    dMid := [',', '\n', ' ', ' ', ' ', ' ', ' ', ' '],
    dPost := ['\n', ' ', ' ', ' ', ' '] }

/-- Layout of the compact default of `json.dumps`: `", "` and `": "`. -/
def compactFmt : JsonFmt :=
  { oPre := [], oMid := [',', ' '], oPost := [], kvPad := [' '],
    aPre := [], aMid := [',', ' '], aPost := [],
    dPre := [], dMid := [',', ' '], dPost := [] }

/-- Whitespace-free reference layout used as the common normal form. -/
def minFmt : JsonFmt :=
  { oPre := [], oMid := [','], oPost := [], kvPad := [],
    aPre := [], aMid := [','], aPost := [],
    dPre := [], dMid := [','], dPost := [] }

/-- Strip whitespace outside JSON string literals.  The first flag is the
inside-a-string state, the second the just-after-a-backslash state. -/
def stripAux : Bool → Bool → List Char → List Char
  | _, _, [] => []
  | false, _, c :: cs =>
    if c == ' ' || c == '\n' then stripAux false false cs
    else if c == '"' then c :: stripAux true false cs
    else c :: stripAux false false cs
  | true, true, c :: cs => c :: stripAux true false cs
  | true, false, c :: cs =>
    if c == '\\' then c :: stripAux true true cs
    else if c == '"' then c :: stripAux false false cs
    else c :: stripAux true false cs

/-- The logical JSON content of a rendered byte sequence: its characters
with all whitespace outside string literals removed. -/
def stripJson (l : List Char) : List Char := stripAux false false l

/-- `save_final_result(discussions)`: build `output_data` once, write the
`indent=2` rendering to the plain file, and the gzip (`comp`) of the
compact rendering to the compressed file.  `now` is
`datetime.now().isoformat()`; `comp` is the modelled
UTF-8-encode-then-gzip-compress stream transform. -/
structure SaveOut where
  output_data : FinalArtifact
  plainFile : List Char
  gzipFile : List Char

def save_final_result (ds : List Discussion) (now : String)
    (comp : List Char → List Char) : SaveOut :=
  let output_data := build_output_data ds now
  { output_data := output_data,
    plainFile := dumpArtifact prettyFmt output_data,
    gzipFile := comp (dumpArtifact compactFmt output_data) }

/-- A piece of rendered output whose whitespace-stripped form is `m`,
compositionally: stripping any continuation after it strips `m` out and
resumes outside a string literal. -/
def CleanPiece (v m : List Char) : Prop :=
  ∀ rest, stripAux false false (v ++ rest) = m ++ stripAux false false rest

theorem cleanPiece_nil : CleanPiece [] [] := fun _ => rfl

theorem cleanPiece_append {a ma b mb : List Char} (h1 : CleanPiece a ma)
    (h2 : CleanPiece b mb) : CleanPiece (a ++ b) (ma ++ mb) := by
  intro rest
  rw [List.append_assoc, h1, h2, List.append_assoc]

/-- Characters that pass through the stripper untouched and keep it
outside a string: not whitespace, not a quote. -/
def plainChar (c : Char) : Prop :=
  (c == ' ' || c == '\n') = false ∧ (c == '"') = false

instance (c : Char) : Decidable (plainChar c) := by
  unfold plainChar; infer_instance

theorem cleanPiece_plain : ∀ l, (∀ c ∈ l, plainChar c) → CleanPiece l l := by
  intro l
  induction l with
  | nil => intro _; exact cleanPiece_nil
  | cons c cs ih =>
    intro h rest
    have hc := h c (by simp)
    have ihr := ih (fun x hx => h x (by simp [hx])) rest
    calc stripAux false false (c :: cs ++ rest)
        = c :: stripAux false false (cs ++ rest) := by
          simp [stripAux, hc.1, hc.2]
      _ = c :: (cs ++ stripAux false false rest) := by rw [ihr]
      _ = (c :: cs) ++ stripAux false false rest := rfl

theorem cleanPiece_ws : ∀ l, (∀ c ∈ l, (c == ' ' || c == '\n') = true) →
    CleanPiece l [] := by
  intro l
  induction l with
  | nil => intro _; exact cleanPiece_nil
  | cons c cs ih =>
    intro h rest
    have hc := h c (by simp)
    have ihr := ih (fun x hx => h x (by simp [hx])) rest
    calc stripAux false false (c :: cs ++ rest)
        = stripAux false false (cs ++ rest) := by simp [stripAux, hc]
      _ = [] ++ stripAux false false rest := by rw [ihr]

theorem cleanPiece_comma_ws (l : List Char)
    (h : ∀ c ∈ l, (c == ' ' || c == '\n') = true) :
    CleanPiece (',' :: l) [','] := by
  have := cleanPiece_append (cleanPiece_plain [','] (by decide)) (cleanPiece_ws l h)
  simpa using this

/-- Inside a string literal, escaped content passes the stripper
untouched and leaves it inside the string after no escape. -/
theorem stripAux_escStr : ∀ (cs rest : List Char),
    stripAux true false ((cs.map escChar).flatten ++ rest) =
      (cs.map escChar).flatten ++ stripAux true false rest := by
  intro cs
  induction cs with
  | nil => intro rest; rfl
  | cons c cs ih =>
    intro rest
    simp only [List.map_cons, List.flatten_cons, List.append_assoc]
    by_cases h1 : (c == '"' || c == '\\') = true
    · simp only [escChar, h1, if_pos]
      simp only [List.cons_append, List.nil_append]
      rw [show stripAux true false ('\\' :: c :: ((cs.map escChar).flatten ++ rest)) =
            '\\' :: c :: stripAux true false ((cs.map escChar).flatten ++ rest) from by
          simp [stripAux]]
      rw [ih]
    · by_cases h2 : (c == '\n') = true
      · simp only [escChar, h1, h2, if_neg, if_pos, Bool.not_eq_true]
        simp only [List.cons_append, List.nil_append]
        rw [show stripAux true false ('\\' :: 'n' :: ((cs.map escChar).flatten ++ rest)) =
              '\\' :: 'n' :: stripAux true false ((cs.map escChar).flatten ++ rest) from by
            simp [stripAux]]
        rw [ih]
      · have hq : (c == '"') = false := by
          cases hcq : (c == '"') with
          | false => rfl
          | true => exact absurd (by simp [hcq]) h1
        have hb : (c == '\\') = false := by
          cases hcb : (c == '\\') with
          | false => rfl
          | true => exact absurd (by simp [hcb]) h1
        simp only [escChar, h1, h2, if_neg, Bool.not_eq_true]
        simp only [List.cons_append, List.nil_append]
        rw [show stripAux true false (c :: ((cs.map escChar).flatten ++ rest)) =
              c :: stripAux true false ((cs.map escChar).flatten ++ rest) from by
            simp [stripAux, hb, hq]]
        rw [ih]

theorem cleanPiece_jstr (s : String) : CleanPiece (jstr s) (jstr s) := by
  intro rest
  simp only [jstr, escStr, List.cons_append, List.append_assoc, List.singleton_append,
    List.nil_append]
  rw [show stripAux false false ('"' :: ((s.data.map escChar).flatten ++ ('"' :: rest))) =
        '"' :: stripAux true false ((s.data.map escChar).flatten ++ ('"' :: rest)) from by
      simp [stripAux]]
  rw [stripAux_escStr]
  rw [show stripAux true false ('"' :: rest) = '"' :: stripAux false false rest from by
      simp [stripAux]]

theorem digitChar_plain (d : Nat) (hd : d < 10) : plainChar (digitChar d) := by
  interval_cases d <;> decide

theorem natChars_plain (n : Nat) : ∀ c ∈ natChars n, plainChar c := by
  induction n using Nat.strong_induction_on with
  | _ n ih =>
    rw [natChars]
    by_cases h : n < 10
    · rw [if_pos h]
      intro c hc
      rw [List.mem_singleton] at hc
      subst hc
      exact digitChar_plain n h
    · rw [if_neg h]
      intro c hc
      rcases List.mem_append.mp hc with hc | hc
      · exact ih (n / 10) (Nat.div_lt_self (by omega) (by omega)) c hc
      · rw [List.mem_singleton] at hc
        subst hc
        exact digitChar_plain (n % 10) (Nat.mod_lt _ (by omega))

theorem cleanPiece_natChars (n : Nat) : CleanPiece (natChars n) (natChars n) :=
  cleanPiece_plain _ (natChars_plain n)

theorem cleanPiece_joinSep (sep msep : List Char) (hsep : CleanPiece sep msep) :
    ∀ vs ms, List.Forall₂ CleanPiece vs ms →
      CleanPiece (joinSep sep vs) (joinSep msep ms) := by
  intro vs
  induction vs with
  | nil =>
    intro ms h
    cases h
    exact cleanPiece_nil
  | cons v vs ih =>
    intro ms h
    cases h with
    | cons hv htail =>
      cases vs with
      | nil =>
        cases htail
        exact hv
      | cons v' vs' =>
        cases htail with
        | cons hv' htail' =>
          exact cleanPiece_append (cleanPiece_append hv hsep)
            (ih _ (List.Forall₂.cons hv' htail'))

theorem cleanPiece_renderKV (kvPad : List Char) (hpad : CleanPiece kvPad [])
    (f g : String × List Char) (heq : f.1 = g.1) (hv : CleanPiece f.2 g.2) :
    CleanPiece (renderKV kvPad f) (renderKV [] g) := by
  obtain ⟨k, v⟩ := f
  obtain ⟨k2, mv⟩ := g
  simp only at heq hv
  subst heq
  unfold renderKV
  simpa using cleanPiece_append (cleanPiece_append
    (cleanPiece_append (cleanPiece_jstr k) (cleanPiece_plain [':'] (by decide)))
    hpad) hv

theorem forall₂_map_renderKV (kvPad : List Char) (hpad : CleanPiece kvPad [])
    (fields mfields : List (String × List Char))
    (h : List.Forall₂ (fun f g => f.1 = g.1 ∧ CleanPiece f.2 g.2) fields mfields) :
    List.Forall₂ CleanPiece (fields.map (renderKV kvPad))
      (mfields.map (renderKV [])) := by
  induction h with
  | nil => exact List.Forall₂.nil
  | cons hfg _ ihtail =>
    exact List.Forall₂.cons (cleanPiece_renderKV kvPad hpad _ _ hfg.1 hfg.2) ihtail

theorem cleanPiece_renderObj (pre mid post kvPad : List Char)
    (hpre : CleanPiece pre []) (hmid : CleanPiece mid [','])
    (hpost : CleanPiece post []) (hpad : CleanPiece kvPad [])
    (fields mfields : List (String × List Char))
    (hf : List.Forall₂ (fun f g => f.1 = g.1 ∧ CleanPiece f.2 g.2) fields mfields) :
    CleanPiece (renderObj pre mid post kvPad fields)
      (renderObj [] [','] [] [] mfields) := by
  have hjoin := cleanPiece_joinSep mid [','] hmid _ _
    (forall₂_map_renderKV kvPad hpad fields mfields hf)
  have hall := cleanPiece_append (cleanPiece_append (cleanPiece_append
    (cleanPiece_append (cleanPiece_plain [lcurl] (by decide)) hpre) hjoin) hpost)
    (cleanPiece_plain [rcurl] (by decide))
  simpa [renderObj, List.append_assoc] using hall

theorem cleanPiece_renderArr (pre mid post : List Char)
    (hpre : CleanPiece pre []) (hmid : CleanPiece mid [','])
    (hpost : CleanPiece post [])
    (elems melems : List (List Char)) (he : List.Forall₂ CleanPiece elems melems) :
    CleanPiece (renderArr pre mid post elems) (renderArr [] [','] [] melems) := by
  cases he with
  | nil => exact cleanPiece_plain ['[', ']'] (by decide)
  | cons hv htail =>
    have hjoin := cleanPiece_joinSep mid [','] hmid _ _ (List.Forall₂.cons hv htail)
    have hall := cleanPiece_append (cleanPiece_append (cleanPiece_append
      (cleanPiece_append (cleanPiece_plain ['['] (by decide)) hpre) hjoin) hpost)
      (cleanPiece_plain [']'] (by decide))
    simpa [renderArr, List.append_assoc] using hall

/-- A serialization layout all of whose separators are whitespace around
the mandatory structural comma. -/
structure GoodFmt (fmt : JsonFmt) : Prop where
  oPre : CleanPiece fmt.oPre []
  oMid : CleanPiece fmt.oMid [',']
  oPost : CleanPiece fmt.oPost []
  kvPad : CleanPiece fmt.kvPad []
  aPre : CleanPiece fmt.aPre []
  aMid : CleanPiece fmt.aMid [',']
  aPost : CleanPiece fmt.aPost []
  dPre : CleanPiece fmt.dPre []
  dMid : CleanPiece fmt.dMid [',']
  dPost : CleanPiece fmt.dPost []

theorem goodFmt_pretty : GoodFmt prettyFmt :=
  ⟨cleanPiece_ws _ (by decide), cleanPiece_comma_ws _ (by decide),
   cleanPiece_ws _ (by decide), cleanPiece_ws _ (by decide),
   cleanPiece_ws _ (by decide), cleanPiece_comma_ws _ (by decide),
   cleanPiece_ws _ (by decide), cleanPiece_ws _ (by decide),
   cleanPiece_comma_ws _ (by decide), cleanPiece_ws _ (by decide)⟩

theorem goodFmt_compact : GoodFmt compactFmt :=
  ⟨cleanPiece_ws _ (by decide), cleanPiece_comma_ws _ (by decide),
   cleanPiece_ws _ (by decide), cleanPiece_ws _ (by decide),
   cleanPiece_ws _ (by decide), cleanPiece_comma_ws _ (by decide),
   cleanPiece_ws _ (by decide), cleanPiece_ws _ (by decide),
   cleanPiece_comma_ws _ (by decide), cleanPiece_ws _ (by decide)⟩

theorem forall₂_discFieldVals (d : Discussion) :
    List.Forall₂ (fun f g => f.1 = g.1 ∧ CleanPiece f.2 g.2)
      (discFieldVals d) (discFieldVals d) :=
  List.Forall₂.cons ⟨rfl, cleanPiece_natChars _⟩
    (List.Forall₂.cons ⟨rfl, cleanPiece_jstr _⟩
      (List.Forall₂.cons ⟨rfl, cleanPiece_jstr _⟩
        (List.Forall₂.cons ⟨rfl, cleanPiece_jstr _⟩
          (List.Forall₂.cons ⟨rfl, cleanPiece_jstr _⟩ List.Forall₂.nil))))

/-- Rendering the artifact in any whitespace-only layout strips to the
whitespace-free reference rendering. -/
theorem cleanPiece_dumpArtifact (fmt : JsonFmt) (hg : GoodFmt fmt)
    (a : FinalArtifact) :
    CleanPiece (dumpArtifact fmt a) (dumpArtifact minFmt a) := by
  unfold dumpArtifact
  simp only [minFmt]
  apply cleanPiece_renderObj _ _ _ _ hg.oPre hg.oMid hg.oPost hg.kvPad
  refine List.Forall₂.cons ⟨rfl, cleanPiece_jstr _⟩ ?_
  refine List.Forall₂.cons ⟨rfl, cleanPiece_jstr _⟩ ?_
  refine List.Forall₂.cons ⟨rfl, cleanPiece_natChars _⟩ ?_
  refine List.Forall₂.cons ⟨rfl, cleanPiece_jstr _⟩ ?_
  refine List.Forall₂.cons ⟨rfl, ?_⟩ List.Forall₂.nil
  apply cleanPiece_renderArr _ _ _ hg.aPre hg.aMid hg.aPost
  induction a.discussions with
  | nil => exact List.Forall₂.nil
  | cons d ds ih =>
    exact List.Forall₂.cons
      (cleanPiece_renderObj _ _ _ _ hg.dPre hg.dMid hg.dPost hg.kvPad _ _
        (forall₂_discFieldVals d)) ih

theorem stripJson_dumpArtifact (fmt : JsonFmt) (hg : GoodFmt fmt)
    (a : FinalArtifact) :
    stripJson (dumpArtifact fmt a) = dumpArtifact minFmt a := by
  have h := cleanPiece_dumpArtifact fmt hg a []
  simpa [stripJson, stripAux] using h

/-- C9: for every discussions list, `save_final_result` writes two files
of identical logical content: the compressed file, after decompression,
is the compact rendering of exactly the same `output_data` document
(repository, category_id, total_count, fetched_at, discussions — built
once, with one timestamp) whose `indent=2` rendering is the uncompressed
file, and the two renderings agree character for character once
whitespace outside string literals is stripped — only the physical
encoding differs. -/
theorem c9_two_encodings (ds : List Discussion) (now : String)
    (comp decomp : List Char → List Char) (hcodec : ∀ l, decomp (comp l) = l) :
    decomp ((save_final_result ds now comp).gzipFile) =
        dumpArtifact compactFmt (build_output_data ds now) ∧
      (save_final_result ds now comp).plainFile =
        dumpArtifact prettyFmt (build_output_data ds now) ∧
      stripJson (decomp ((save_final_result ds now comp).gzipFile)) =
        stripJson ((save_final_result ds now comp).plainFile) := by
  refine ⟨hcodec _, rfl, ?_⟩
  show stripJson (decomp (comp (dumpArtifact compactFmt (build_output_data ds now)))) =
    stripJson (dumpArtifact prettyFmt (build_output_data ds now))
  rw [hcodec]
  rw [stripJson_dumpArtifact _ goodFmt_compact, stripJson_dumpArtifact _ goodFmt_pretty]

/-- Witness for C9 with the identity codec and a one-discussion list. -/
theorem c9_two_encodings_witness :
    (∀ l : List Char, id (id l) = l) ∧
      (id ((save_final_result [disc1] "T" id).gzipFile) =
          dumpArtifact compactFmt (build_output_data [disc1] "T") ∧
        (save_final_result [disc1] "T" id).plainFile =
          dumpArtifact prettyFmt (build_output_data [disc1] "T") ∧
        stripJson (id ((save_final_result [disc1] "T" id).gzipFile)) =
          stripJson ((save_final_result [disc1] "T" id).plainFile)) :=
  ⟨fun _ => rfl, c9_two_encodings [disc1] "T" id id (fun _ => rfl)⟩

/-- Parsed checkpoint-file object that lacks the `discussions` key (used
as concrete input below). -/
def rawMissingDiscussions : RawCheckpoint :=
  { discussions := none, last_cursor := some none, has_more := some true,
    total_count := some 0 }

/-- Witness for C10: a parsed checkpoint object with no `discussions`
key. -/
theorem c10_missing_key_witness :
    (rawMissingDiscussions.discussions = none ∨
      rawMissingDiscussions.last_cursor = none ∨
      rawMissingDiscussions.has_more = none) ∧
      (load_checkpoint (.content rawMissingDiscussions) = rawMissingDiscussions ∧
        fetch_discussions (.content rawMissingDiscussions) interruptScript "t" 3 =
          { outcome := .raised .keyError, checkpoints := [], finalArtifact := none,
            checkpointCleared := false, pagesRequested := 0, pageCounts := [],
            endCursor := none, endHasMore := true, clock := 0 }) :=
  ⟨Or.inl rfl,
   c10_missing_key rawMissingDiscussions interruptScript "t" 3 (Or.inl rfl)⟩

/-- C1: in the malformed-page scenario (page 1 succeeds with one item and
`hasNextPage = true`, page 2's response has no data section) the loop does
stop and the page-1 checkpoint `{total_count = 1, has_more = true,
last_cursor = "C1"}` is persisted, but — contrary to the claim — after the
`break` control falls through to `save_final_result`: a final artifact
with `total_count = 1` is written and the checkpoint file is deleted. -/
theorem c1_malformed_page_runs_finalizer :
    fetch_discussions .absent malformedScript "now" 5 =
      { outcome := .returned [disc1],
        checkpoints := [{ discussions := [disc1], last_cursor := some "C1",
                          has_more := true, total_count := 1 }],
        finalArtifact := some { repository := "helloamger/JiNan-Company-Rating",
                                category_id := CATEGORY_ID, total_count := 1,
                                fetched_at := "now", discussions := [disc1] },
        checkpointCleared := true, pagesRequested := 2, pageCounts := [1],
        endCursor := some "C1", endHasMore := true, clock := 25 } := by
  decide

/-- C2 counterexample: when every attempt yields a rate-limit GraphQL
error with a nonzero reset header, `execute_graphql_with_retry` neither
returns a payload nor raises — it returns `None`, which the claim says
never happens. -/
theorem c2_counterexample :
    (execute_graphql_with_retry rateLimitScript 3 5 0).res = .retNone := by
  decide

/-- C3 counterexample: with `max_retries = 3` and every response a
rate-limit error (reset 10 units past the start), the executor makes
exactly 3 attempts — each rate-limit wait consumes a retry-count slot —
and then gives up with a `None` return instead of retrying further, so
rate-limit retries are neither uncapped nor free of the retry budget. -/
theorem c3_counterexample :
    execute_graphql_with_retry rateLimitScript 3 5 0 =
      { res := .retNone, clock := 25, sleeps := [15, 5, 5], tries := 3 } := by
  decide

/-- C4 counterexample: when the executor exhausts its retries and raises,
`fetch_discussions` does not absorb the failure — the exception is
re-raised to the caller after a checkpoint save. -/
theorem c4_counterexample :
    (fetch_discussions .absent transportFailScript "t" 3).outcome =
      .raised (.fetch (.transport "conn reset")) := by
  decide

/-- C5 counterexample: an interrupt at the first iteration boundary is
caught and a checkpoint is saved, but the interruption is not propagated:
`fetch_discussions` returns the accumulator normally. -/
theorem c5_counterexample :
    fetch_discussions .absent interruptScript "t" 3 =
      { outcome := .returned [],
        checkpoints := [{ discussions := [], last_cursor := none,
                          has_more := true, total_count := 0 }],
        finalArtifact := none, checkpointCleared := false,
        pagesRequested := 0, pageCounts := [],
        endCursor := none, endHasMore := true, clock := 0 } := by
  decide

end FetchList
